import Mathlib

/-!
Verification of the incremental synchronization engine of the
PM-status-update repository against its natural-language specification.

The definitions below are a shallow embedding of the JavaScript source:

* `src/dataFetcher.js` (MongoDB variant): the spaces-JSON cursor store
  (`loadSpacesFromJSON`, `updateSpaceInJSON`), the chat and gmail
  collectors (`collectChatData`, `collectGmailData`) and the orchestrator
  (`collectAllData`, `collectUserData`).
* `src/utils/googleAuth.js`: the retry wrapper `executeWithRetry`.
* `src/unnamed/part_006` (the MongoDB layer): the message schemas and
  `insertChatMessages` / `insertGmailMessages`.

Timestamps are modelled as natural numbers (milliseconds since epoch,
matching JavaScript `Date.getTime()`).  File system state for the spaces
JSON file is `Option (List SpaceRec)`: `none` models an absent or
unreadable file, `some l` a readable file holding the array `l`.
-/

namespace PMStatus

/-- One entry of `spaces_with_latest_messages.json`, as read by
`loadSpacesFromJSON` and mapped in `collectChatData` (fields `space_id`,
`space_name`, `latest_message_time`, `has_new_msg`, `spaceType`). -/
structure SpaceRec where
  space_id : String
  space_name : String
  latest_message_time : Option Nat
  has_new_msg : Bool
  spaceType : String
deriving Repr, DecidableEq

/-- `loadSpacesFromJSON` of `src/dataFetcher.js`: returns the parsed array,
or an empty array when the file is absent or unreadable (both error paths
log and return `[]` instead of throwing). -/
def loadSpacesFromJSON : Option (List SpaceRec) → List SpaceRec
  | none => []
  | some l => l

/-- The in-place mutation performed by `updateSpaceInJSON` at the found
index: JavaScript `findIndex` locates the first entry with the given
`space_id`, whose `latest_message_time` and `has_new_msg` are overwritten. -/
def setSpaceTime : List SpaceRec → String → Option Nat → Bool → List SpaceRec
  | [], _, _, _ => []
  | s :: rest, sid, t, b =>
    if s.space_id = sid then
      { s with latest_message_time := t, has_new_msg := b } :: rest
    else
      s :: setSpaceTime rest sid t b

/-- `updateSpaceInJSON(spaceId, latestMessageTime, hasNewMsg)` of
`src/dataFetcher.js`: load the spaces file, find the first entry with the
given `space_id`; if found, overwrite its `latest_message_time` and
`has_new_msg` and save the file; otherwise only log a warning and leave
the file untouched.  All errors are caught and logged, never rethrown. -/
def updateSpaceInJSON (fileState : Option (List SpaceRec)) (spaceId : String)
    (latestMessageTime : Option Nat) (hasNewMsg : Bool) :
    Option (List SpaceRec) :=
  if (loadSpacesFromJSON fileState).any (fun s => s.space_id = spaceId) then
    some (setSpaceTime (loadSpacesFromJSON fileState) spaceId latestMessageTime
      hasNewMsg)
  else
    fileState

/-- `getWatermark`: the per-space watermark a later cycle would read from
the spaces file (spec §4.3, the chat cursor keyed per conversation space). -/
def getWatermark (fileState : Option (List SpaceRec)) (spaceId : String) :
    Option Nat :=
  ((loadSpacesFromJSON fileState).find? (fun s => s.space_id = spaceId)).bind
    (fun s => s.latest_message_time)

theorem setSpaceTime_any (l : List SpaceRec) (sid : String) (t : Option Nat)
    (b : Bool) (sid' : String) :
    (setSpaceTime l sid t b).any (fun s => s.space_id = sid') =
      l.any (fun s => s.space_id = sid') := by
  induction l with
  | nil => rfl
  | cons s rest ih =>
    simp only [setSpaceTime]
    by_cases h : s.space_id = sid
    · simp [h]
    · simp [h, ih]

theorem setSpaceTime_find?_self (l : List SpaceRec) (sid : String)
    (t : Option Nat) (b : Bool)
    (h : l.any (fun s => s.space_id = sid) = true) :
    ∃ s, (setSpaceTime l sid t b).find? (fun s => s.space_id = sid) = some s ∧
      s.latest_message_time = t := by
  induction l with
  | nil => simp at h
  | cons x rest ih =>
    simp only [setSpaceTime]
    by_cases hx : x.space_id = sid
    · refine ⟨{ x with latest_message_time := t, has_new_msg := b }, ?_, rfl⟩
      simp [List.find?, hx]
    · have h' : rest.any (fun s => s.space_id = sid) = true := by
        simpa [List.any_cons, hx] using h
      obtain ⟨s, hs, hst⟩ := ih h'
      refine ⟨s, ?_, hst⟩
      simp [List.find?, hx, hs]

/-- After a successful `updateSpaceInJSON` on a present space, the stored
watermark is exactly the timestamp that was written (last write wins). -/
theorem getWatermark_updateSpaceInJSON (fileState : Option (List SpaceRec))
    (sid : String) (t : Option Nat) (b : Bool)
    (h : (loadSpacesFromJSON fileState).any (fun s => s.space_id = sid) = true) :
    getWatermark (updateSpaceInJSON fileState sid t b) sid = t := by
  unfold updateSpaceInJSON
  rw [if_pos h]
  obtain ⟨s, hs, hst⟩ := setSpaceTime_find?_self (loadSpacesFromJSON fileState) sid t b h
  show ((setSpaceTime (loadSpacesFromJSON fileState) sid t b).find?
      (fun s => s.space_id = sid)).bind (fun s => s.latest_message_time) = t
  rw [hs]
  simpa using hst

/-- Updating a present space keeps it present. -/
theorem updateSpaceInJSON_present (fileState : Option (List SpaceRec))
    (sid : String) (t : Option Nat) (b : Bool)
    (h : (loadSpacesFromJSON fileState).any (fun s => s.space_id = sid) = true) :
    (loadSpacesFromJSON (updateSpaceInJSON fileState sid t b)).any
      (fun s => s.space_id = sid) = true := by
  unfold updateSpaceInJSON
  rw [if_pos h]
  show (setSpaceTime (loadSpacesFromJSON fileState) sid t b).any
      (fun s => s.space_id = sid) = true
  rw [setSpaceTime_any]
  exact h

theorem setSpaceTime_idem (l : List SpaceRec) (sid : String) (t : Option Nat)
    (b : Bool) :
    setSpaceTime (setSpaceTime l sid t b) sid t b = setSpaceTime l sid t b := by
  induction l with
  | nil => rfl
  | cons s rest ih =>
    simp only [setSpaceTime]
    by_cases h : s.space_id = sid
    · simp [setSpaceTime, h]
    · simp [setSpaceTime, h, ih]

/-- C1 (counterexample): `updateSpaceInJSON` does not keep the larger
timestamp.  With a spaces file holding space "spaces/A" and timestamps
t1 = 3 ≤ t2 = 5, advancing the watermark to 5 and then to 3 leaves it at
3, not 5: the function overwrites unconditionally, so advancing to an
earlier timestamp does move the watermark backward. -/
theorem C1_counterexample :
    3 ≤ 5 ∧
    getWatermark
      (updateSpaceInJSON
        (updateSpaceInJSON (some [⟨"spaces/A", "Alpha", some 0, false, "SPACE"⟩])
          "spaces/A" (some 5) true)
        "spaces/A" (some 3) true) "spaces/A" = some 3 := by
  constructor
  · decide
  · rfl

/-- C1 (amended): `updateSpaceInJSON` is last-write-wins, not monotone.
For a space present in the spaces file: advancing to t1 and then to t2
leaves the watermark at t2 (in particular, for t1 ≤ t2 the forward order
yields t2, but the reverse order yields t1, not t2); and repeating the
same update is idempotent — applying `updateSpaceInJSON` twice with the
same timestamp gives the same file state as applying it once. -/
theorem C1_watermark_last_write_wins (fs : Option (List SpaceRec))
    (sid : String) (t1 t2 : Option Nat) (b1 b2 : Bool)
    (h : (loadSpacesFromJSON fs).any (fun s => s.space_id = sid) = true) :
    getWatermark
        (updateSpaceInJSON (updateSpaceInJSON fs sid t1 b1) sid t2 b2) sid = t2 ∧
    updateSpaceInJSON (updateSpaceInJSON fs sid t2 b2) sid t2 b2 =
      updateSpaceInJSON fs sid t2 b2 := by
  constructor
  · exact getWatermark_updateSpaceInJSON _ _ _ _
      (updateSpaceInJSON_present fs sid t1 b1 h)
  · have hu : updateSpaceInJSON fs sid t2 b2 =
        some (setSpaceTime (loadSpacesFromJSON fs) sid t2 b2) := by
      rw [updateSpaceInJSON, if_pos h]
    rw [hu, updateSpaceInJSON]
    rw [if_pos]
    · show some (setSpaceTime (setSpaceTime (loadSpacesFromJSON fs) sid t2 b2)
        sid t2 b2) = _
      rw [setSpaceTime_idem]
    · show (setSpaceTime (loadSpacesFromJSON fs) sid t2 b2).any
        (fun s => s.space_id = sid) = true
      rw [setSpaceTime_any]
      exact h

/-- C1 (witness): the amended theorem applied at a concrete file state
holding one space with watermark 0, t1 = 7, t2 = 5. -/
theorem C1_witness :
    getWatermark
        (updateSpaceInJSON
          (updateSpaceInJSON (some [⟨"spaces/A", "Alpha", some 0, false, "SPACE"⟩])
            "spaces/A" (some 7) true)
          "spaces/A" (some 5) true) "spaces/A" = some 5 ∧
    updateSpaceInJSON
        (updateSpaceInJSON (some [⟨"spaces/A", "Alpha", some 0, false, "SPACE"⟩])
          "spaces/A" (some 5) true)
        "spaces/A" (some 5) true =
      updateSpaceInJSON (some [⟨"spaces/A", "Alpha", some 0, false, "SPACE"⟩])
        "spaces/A" (some 5) true :=
  C1_watermark_last_write_wins
    (some [⟨"spaces/A", "Alpha", some 0, false, "SPACE"⟩])
    "spaces/A" (some 7) (some 5) true true (by decide)

/-- C10: calling `updateSpaceInJSON` with a `space_id` that has no entry
in the spaces file is a silent no-op: the file state is unchanged (nothing
is written, no entry is created) and the function returns normally (all
errors are caught inside); consequently such a space still has no
watermark afterwards. -/
theorem C10_absent_space_noop (fs : Option (List SpaceRec)) (sid : String)
    (t : Option Nat) (b : Bool)
    (h : (loadSpacesFromJSON fs).any (fun s => s.space_id = sid) = false) :
    updateSpaceInJSON fs sid t b = fs ∧
    getWatermark (updateSpaceInJSON fs sid t b) sid = none := by
  have hupd : updateSpaceInJSON fs sid t b = fs := by
    unfold updateSpaceInJSON
    rw [if_neg]
    simp [h]
  refine ⟨hupd, ?_⟩
  rw [hupd]
  unfold getWatermark
  have : (loadSpacesFromJSON fs).find? (fun s => s.space_id = sid) = none := by
    rw [List.find?_eq_none]
    intro x hx
    have := (List.any_eq_false).mp h x hx
    simpa using this
  rw [this]
  rfl

/-- C10 (witness): updating space "spaces/B", absent from a file that only
holds "spaces/A", changes nothing and yields no watermark for "spaces/B". -/
theorem C10_witness :
    updateSpaceInJSON (some [⟨"spaces/A", "Alpha", some 4, true, "SPACE"⟩])
        "spaces/B" (some 9) true =
      some [⟨"spaces/A", "Alpha", some 4, true, "SPACE"⟩] ∧
    getWatermark
        (updateSpaceInJSON (some [⟨"spaces/A", "Alpha", some 4, true, "SPACE"⟩])
          "spaces/B" (some 9) true) "spaces/B" = none :=
  C10_absent_space_noop (some [⟨"spaces/A", "Alpha", some 4, true, "SPACE"⟩])
    "spaces/B" (some 9) true (by decide)

/-! ## RetryExecutor: `executeWithRetry` of `src/utils/googleAuth.js` -/

/-- An error thrown by a wrapped remote call, as inspected by
`executeWithRetry` (only the numeric `code` field is examined; `none`
models an error object without a `code`). -/
structure ApiError where
  code : Option Nat
  msg : String
deriving Repr, DecidableEq

/-- The transience classification of `executeWithRetry`:
`error.code === 429 || error.code === 503` (rate limited or service
unavailable). -/
def isTransientError (e : ApiError) : Bool :=
  e.code = some 429 || e.code = some 503

/-- The outcome of running `executeWithRetry`: the value returned or error
thrown (`none` models the loop exiting without returning, impossible when
`1 ≤ maxRetries`), the backoff delays slept in order, and the number of
times the wrapped operation was invoked. -/
structure RetryOutcome (α : Type) where
  result : Option (Except ApiError α)
  delays : List Nat
  attemptsMade : Nat
deriving Repr

/-- The `for (let attempt = 1; attempt <= maxRetries; attempt++)` loop of
`executeWithRetry`, entered at iteration `attempt`.  `apiCall n` is the
outcome of the n-th invocation of the wrapped zero-argument operation: on
`ok` the loop returns the value; on a transient error it rethrows when
`attempt === maxRetries` and otherwise sleeps `baseDelay * 2^(attempt-1)`
and continues; on any other error it rethrows immediately. -/
def executeWithRetryFrom (apiCall : Nat → Except ApiError α)
    (maxRetries baseDelay : Nat) (attempt : Nat) : RetryOutcome α :=
  if _h : attempt ≤ maxRetries then
    match apiCall attempt with
    | .ok v => ⟨some (.ok v), [], 1⟩
    | .error e =>
      if isTransientError e then
        if attempt = maxRetries then
          ⟨some (.error e), [], 1⟩
        else
          let r := executeWithRetryFrom apiCall maxRetries baseDelay (attempt + 1)
          ⟨r.result, baseDelay * 2 ^ (attempt - 1) :: r.delays, r.attemptsMade + 1⟩
      else
        ⟨some (.error e), [], 1⟩
  else
    ⟨none, [], 0⟩
termination_by maxRetries + 1 - attempt
decreasing_by omega

/-- `executeWithRetry(apiCall, maxRetries = 3, baseDelay = 1000)` with its
default arguments, starting at attempt 1. -/
def executeWithRetry (apiCall : Nat → Except ApiError α) : RetryOutcome α :=
  executeWithRetryFrom apiCall 3 1000 1

theorem executeWithRetryFrom_ok (apiCall : Nat → Except ApiError α)
    (m b a : Nat) (v : α) (ha : a ≤ m) (hv : apiCall a = .ok v) :
    executeWithRetryFrom apiCall m b a = ⟨some (.ok v), [], 1⟩ := by
  unfold executeWithRetryFrom
  rw [dif_pos ha, hv]

theorem executeWithRetryFrom_transient_mid (apiCall : Nat → Except ApiError α)
    (m b a : Nat) (e : ApiError) (ha : a ≤ m) (hne : a ≠ m)
    (he : apiCall a = .error e) (ht : isTransientError e = true) :
    executeWithRetryFrom apiCall m b a =
      ⟨(executeWithRetryFrom apiCall m b (a + 1)).result,
        b * 2 ^ (a - 1) :: (executeWithRetryFrom apiCall m b (a + 1)).delays,
        (executeWithRetryFrom apiCall m b (a + 1)).attemptsMade + 1⟩ := by
  conv_lhs => rw [executeWithRetryFrom]
  rw [dif_pos ha, he]
  simp only [ht, if_true, if_neg hne]

theorem executeWithRetryFrom_transient_last (apiCall : Nat → Except ApiError α)
    (m b a : Nat) (e : ApiError) (ha : a ≤ m) (heq : a = m)
    (he : apiCall a = .error e) (ht : isTransientError e = true) :
    executeWithRetryFrom apiCall m b a = ⟨some (.error e), [], 1⟩ := by
  unfold executeWithRetryFrom
  rw [dif_pos ha, he]
  simp only [ht, if_true, if_pos heq]

theorem executeWithRetryFrom_permanent (apiCall : Nat → Except ApiError α)
    (m b a : Nat) (e : ApiError) (ha : a ≤ m)
    (he : apiCall a = .error e) (ht : isTransientError e = false) :
    executeWithRetryFrom apiCall m b a = ⟨some (.error e), [], 1⟩ := by
  unfold executeWithRetryFrom
  rw [dif_pos ha, he]
  simp only [ht, Bool.false_eq_true, if_false]

/-- C4: with the default arguments (3 attempts, base delay 1000 ms),
(a) an operation that fails with a transient error on every attempt is
invoked exactly 3 times, the waits after attempts 1 and 2 are
`base * 2^0` and `base * 2^1` milliseconds, and the error of the third
attempt is rethrown to the caller; (b) if the first `k - 1` attempts fail
transiently and attempt `k ≤ 3` fails with a non-transient error, that
error propagates immediately: the operation is invoked exactly `k` times
and no delay follows attempt `k`. -/
theorem C4_retry_bound (apiCall : Nat → Except ApiError α)
    (f : Nat → ApiError) :
    ((∀ n, apiCall n = .error (f n)) →
      (∀ n, isTransientError (f n) = true) →
      executeWithRetry apiCall =
        ⟨some (.error (f 3)), [1000 * 2 ^ 0, 1000 * 2 ^ 1], 3⟩) ∧
    (∀ k e, 1 ≤ k → k ≤ 3 →
      (∀ n, 1 ≤ n → n < k →
        apiCall n = .error (f n) ∧ isTransientError (f n) = true) →
      apiCall k = .error e → isTransientError e = false →
      executeWithRetry apiCall =
        ⟨some (.error e), ((List.range (k - 1)).map fun i => 1000 * 2 ^ i), k⟩) := by
  constructor
  · intro h ht
    unfold executeWithRetry
    rw [executeWithRetryFrom_transient_mid apiCall 3 1000 1 (f 1) (by omega)
      (by omega) (h 1) (ht 1)]
    rw [executeWithRetryFrom_transient_mid apiCall 3 1000 2 (f 2) (by omega)
      (by omega) (h 2) (ht 2)]
    rw [executeWithRetryFrom_transient_last apiCall 3 1000 3 (f 3) (by omega)
      rfl (h 3) (ht 3)]
  · intro k e hk1 hk3 hpre he ht
    unfold executeWithRetry
    interval_cases k
    · rw [executeWithRetryFrom_permanent apiCall 3 1000 1 e (by omega) he ht]
      rfl
    · rw [executeWithRetryFrom_transient_mid apiCall 3 1000 1 (f 1) (by omega)
        (by omega) (hpre 1 (by omega) (by omega)).1
        (hpre 1 (by omega) (by omega)).2]
      rw [executeWithRetryFrom_permanent apiCall 3 1000 2 e (by omega) he ht]
      rfl
    · rw [executeWithRetryFrom_transient_mid apiCall 3 1000 1 (f 1) (by omega)
        (by omega) (hpre 1 (by omega) (by omega)).1
        (hpre 1 (by omega) (by omega)).2]
      rw [executeWithRetryFrom_transient_mid apiCall 3 1000 2 (f 2) (by omega)
        (by omega) (hpre 2 (by omega) (by omega)).1
        (hpre 2 (by omega) (by omega)).2]
      rw [executeWithRetryFrom_permanent apiCall 3 1000 3 e (by omega) he ht]
      rfl

/-- C4 (witness): an operation that always throws a 429 rate-limit error
is attempted exactly 3 times with delays 1000 ms then 2000 ms and the 429
error surfaces; an operation that throws a 400 on the first attempt is
attempted once with no delay. -/
theorem C4_witness :
    executeWithRetry (fun _ => (.error ⟨some 429, "rate limited"⟩ :
        Except ApiError Nat)) =
      ⟨some (.error ⟨some 429, "rate limited"⟩), [1000, 2000], 3⟩ ∧
    executeWithRetry (fun _ => (.error ⟨some 400, "bad request"⟩ :
        Except ApiError Nat)) =
      ⟨some (.error ⟨some 400, "bad request"⟩), [], 1⟩ := by
  refine ⟨?_, ?_⟩
  · exact (C4_retry_bound (fun _ => .error ⟨some 429, "rate limited"⟩)
      (fun _ => ⟨some 429, "rate limited"⟩)).1 (fun _ => rfl) (fun _ => rfl)
  · exact (C4_retry_bound (fun _ => .error ⟨some 400, "bad request"⟩)
      (fun _ => ⟨some 400, "bad request"⟩)).2 1 ⟨some 400, "bad request"⟩
      (by omega) (by omega) (fun n h1 h2 => absurd h1 (by omega)) rfl rfl

/-! ## Mail collection strategy: `collectGmailData` of `src/dataFetcher.js` -/

/-- The Gmail search query string chosen by `collectGmailData`.
`all` is the empty query string (no filter: the listing returns the most
recent messages first), `newerThanDays d` is `newer_than:<d>d`, and
`afterTs s` is `after:<s>` with `s` a Unix timestamp in seconds. -/
inductive GmailQuery
  | all
  | newerThanDays (d : Nat)
  | afterTs (s : Nat)
deriving Repr, DecidableEq

/-- Strategy selection of `collectGmailData` (MongoDB variant): given
`hasExistingMessages` (from `hasExistingGmailMessages`) and
`lastSyncTime` (from `getLastGmailSyncTime`, in ms), choose the search
query and `maxResultsToList`.  Initial collection issues no query filter
and lists at most 100 recent messages; incremental with a watermark
issues `after:⌊t/1000⌋` with a 500 cap; incremental without a watermark
falls back to `newer_than:7d` with a 100 cap. -/
def selectGmailStrategy (hasExistingMessages : Bool)
    (lastSyncTime : Option Nat) : GmailQuery × Nat :=
  if !hasExistingMessages then
    (GmailQuery.all, 100)
  else
    match lastSyncTime with
    | some t => (GmailQuery.afterTs (t / 1000), 500)
    | none => (GmailQuery.newerThanDays 7, 100)

/-- Strategy selection of the Supabase variant of `collectGmailData`:
initial collection issues `newer_than:30d` with a 100 cap; incremental
with a watermark issues `after:⌊t/1000⌋` with a 50 cap; incremental
without a watermark falls back to `newer_than:1d` with a 50 cap. -/
def selectGmailStrategySupabase (hasExistingMessages : Bool)
    (lastSyncTime : Option Nat) : GmailQuery × Nat :=
  if !hasExistingMessages then
    (GmailQuery.newerThanDays 30, 100)
  else
    match lastSyncTime with
    | some t => (GmailQuery.afterTs (t / 1000), 50)
    | none => (GmailQuery.newerThanDays 1, 50)

/-- C7: mail collection strategy is a pure function of `hasAnyData` and
the last-sync watermark (it is literally a function of exactly those two
inputs).  When `hasAnyData` is false both variants issue a bounded recent
fetch (MongoDB variant: no date filter, capped at the 100 most recent;
Supabase variant: `newer_than:30d` capped at 100); when `hasAnyData` is
true and the watermark is present both issue an after-the-watermark query
(`after:⌊t/1000⌋`); when `hasAnyData` is true but the watermark is absent
both fall back to a short bounded recent window (`newer_than:7d` capped
at 100, resp. `newer_than:1d` capped at 50) instead of failing or
fetching unbounded history. -/
theorem C7_gmail_strategy_selection :
    (∀ lastSync, selectGmailStrategy false lastSync = (GmailQuery.all, 100) ∧
      selectGmailStrategySupabase false lastSync =
        (GmailQuery.newerThanDays 30, 100)) ∧
    (∀ t, selectGmailStrategy true (some t) =
        (GmailQuery.afterTs (t / 1000), 500) ∧
      selectGmailStrategySupabase true (some t) =
        (GmailQuery.afterTs (t / 1000), 50)) ∧
    (selectGmailStrategy true none = (GmailQuery.newerThanDays 7, 100) ∧
      selectGmailStrategySupabase true none =
        (GmailQuery.newerThanDays 1, 50)) := by
  refine ⟨fun lastSync => ⟨rfl, rfl⟩, fun t => ⟨rfl, rfl⟩, rfl, rfl⟩

/-! ## Durable item store: `insertGmailMessages` / `insertChatMessages`
of the MongoDB layer (`src/unnamed/part_006`) -/

/-- A stored Gmail message row (`gmailMessageSchema`).  The schema
declares a unique compound index on `(user_id, message_id)`. -/
structure GmailRow where
  user_id : String
  message_id : String
  thread_id : String
  subject : String
  sender : String
  recipient : String
  message_time : Nat
  content : String
  labels : List String
deriving Repr, DecidableEq

/-- A stored Chat message row (`chatMessageSchema`).  The schema declares
NO unique index: unlike `gmailMessageSchema` there is no
`index({user_id, message_id}, {unique: true})` line. -/
structure ChatRow where
  user_id : String
  message_id : String
  space_id : String
  space_name : String
  space_type : String
  sender_id : String
  sender_name : String
  sender_email : String
  content : String
  message_time : Nat
  thread_id : Option String
  is_threaded : Bool
deriving Repr, DecidableEq

/-- Whether the unique `(user_id, message_id)` key of a Gmail document is
already present in the collection. -/
def gmailKeyPresent (db : List GmailRow) (m : GmailRow) : Bool :=
  db.any fun r =>
    decide (r.user_id = m.user_id ∧ r.message_id = m.message_id)

/-- `insertGmailMessages(messages)`: `insertMany` with `ordered: false`
against the unique `(user_id, message_id)` index inserts each document
whose key is not yet present (in the collection or earlier in the same
batch) and reports the others as duplicate-key write errors; the
surrounding catch of error code 11000 swallows them and returns the count
of documents actually inserted. -/
def insertGmailMessages (db : List GmailRow) (messages : List GmailRow) :
    List GmailRow × Nat :=
  messages.foldl
    (fun acc m =>
      if gmailKeyPresent acc.1 m then acc else (acc.1 ++ [m], acc.2 + 1))
    (db, 0)

/-- The pre-insert validation loop of `insertChatMessages`: a message is
skipped when `user_id`, `message_id`, `space_id`, `space_name` or
`space_type` is falsy (for string fields: empty). -/
def chatRowValid (m : ChatRow) : Bool :=
  !(m.user_id == "") && !(m.message_id == "") && !(m.space_id == "") &&
    !(m.space_name == "") && !(m.space_type == "")

/-- `insertChatMessages(messages)`: validates the batch, then runs
`insertMany` with `ordered: false`.  Because `chatMessageSchema` has no
unique index, every valid document is inserted — duplicates of already
stored rows included — and `insertedCount` is the number of valid
documents; the duplicate-key (11000) handler in the source is
unreachable. -/
def insertChatMessages (db : List ChatRow) (messages : List ChatRow) :
    List ChatRow × Nat :=
  let validMessages := messages.filter chatRowValid
  (db ++ validMessages, validMessages.length)

/-- C3 (code bug): feeding the same one-message chat batch to
`insertChatMessages` twice stores the message twice — the chat schema is
missing the unique `(user, item id)` index that the spec mandates, that
the Gmail schema and the project's own SQL schema both declare, and that
the function's dead duplicate-key handler presupposes.  For contrast, the
Gmail path absorbs the duplicate feed as specified: the second
`insertGmailMessages` of the same batch inserts 0 documents and leaves
the collection unchanged. -/
theorem C3_chat_duplicate_ingestion_bug :
    (insertChatMessages
        (insertChatMessages []
          [⟨"u1", "spaces/A/messages/1", "spaces/A", "Alpha", "SPACE",
            "users/7", "Bob", "bob@x.test", "hi", 5, none, false⟩]).1
        [⟨"u1", "spaces/A/messages/1", "spaces/A", "Alpha", "SPACE",
          "users/7", "Bob", "bob@x.test", "hi", 5, none, false⟩]).1 =
      [⟨"u1", "spaces/A/messages/1", "spaces/A", "Alpha", "SPACE",
          "users/7", "Bob", "bob@x.test", "hi", 5, none, false⟩,
        ⟨"u1", "spaces/A/messages/1", "spaces/A", "Alpha", "SPACE",
          "users/7", "Bob", "bob@x.test", "hi", 5, none, false⟩] ∧
    insertGmailMessages
        (insertGmailMessages []
          [⟨"u1", "m1", "t1", "Subj", "a@x.test", "b@x.test", 5, "hi", []⟩]).1
        [⟨"u1", "m1", "t1", "Subj", "a@x.test", "b@x.test", 5, "hi", []⟩] =
      ([⟨"u1", "m1", "t1", "Subj", "a@x.test", "b@x.test", 5, "hi", []⟩], 0) := by
  exact ⟨rfl, rfl⟩

/-! ## Chat collection: `collectChatData` of `src/dataFetcher.js`
(MongoDB variant) -/

/-- A message object as returned by the Google Chat API
`spaces.messages.list` (the fields read by `collectChatData`). -/
structure RemoteMsg where
  name : String
  createTime : Nat
  text : String
  formattedText : String
  senderName : String
  senderDisplayName : String
  senderEmail : String
  threadName : Option String
deriving Repr, DecidableEq

/-- JavaScript `a || b` on strings: the empty string is falsy. -/
def jsOrString (a b : String) : String :=
  if a == "" then b else a

/-- Observable actions of one run of `collectChatData`, in order:
a `spaces.messages.list` call for a space (with the `createTime >`
threshold used, if any), an `updateSpaceInJSON` watermark write, the
single `insertChatMessages` database store of the accumulated batch, a
storage-layer watermark query (`getLatestChatMessageCreateTimeForSpace`
— imported by the source but never called from `collectChatData`), and
the final `createSyncLog`. -/
inductive ChatEvent
  | listMessages (spaceId : String) (filterTs : Option Nat)
  | advanceWatermark (spaceId : String) (t : Option Nat) (hasNew : Bool)
  | storeBatch (count : Nat)
  | storageWatermarkQuery (spaceId : String)
  | syncLog (source : String) (status : String) (itemCount : Nat)
deriving Repr, DecidableEq

def ChatEvent.isStoreBatch : ChatEvent → Bool
  | .storeBatch _ => true
  | _ => false

def ChatEvent.isAdvance : ChatEvent → Bool
  | .advanceWatermark _ _ _ => true
  | _ => false

/-- The effect of the `filter: createTime > "<ts>"` parameter on the
remote listing (external provider contract, spec §6): with no threshold
every message of the space is listed; with threshold `t` exactly the
messages with `createTime > t` are listed.  The list is taken in the
API's return order (`orderBy: 'createTime asc'`). -/
def chatApiFilter (msgs : List RemoteMsg) (filterTs : Option Nat) :
    List RemoteMsg :=
  match filterTs with
  | none => msgs
  | some t => msgs.filter fun m => decide (t < m.createTime)

/-- Splitting the listing into pages of at most `pageSize = 100`
messages, each page delivered with a `nextPageToken` until exhausted
(`fuel` bounds the recursion by the list length). -/
def chunkPagesAux : Nat → List RemoteMsg → List (List RemoteMsg)
  | 0, _ => []
  | _, [] => []
  | fuel + 1, x :: xs => ((x :: xs).take 100) :: chunkPagesAux fuel ((x :: xs).drop 100)

/-- The pages returned by the paginated `spaces.messages.list` calls. -/
def chunkPages (l : List RemoteMsg) : List (List RemoteMsg) :=
  chunkPagesAux l.length l

/-- The `chatMessage` object built per message in `collectChatData`
(MongoDB variant): `sender_name` resolves through the user-name mapping
file, then the display name, then `'Unknown'`; `content` falls back from
`text` to `formattedText` to the empty string; `is_threaded` is the
truthiness of `message.thread?.name`. -/
def toChatRow (userId : String) (mapping : List (String × String))
    (space : SpaceRec) (m : RemoteMsg) : ChatRow where
  user_id := userId
  message_id := m.name
  space_id := space.space_id
  space_name := space.space_name
  space_type := space.spaceType
  sender_id := m.senderName
  sender_name :=
    match mapping.lookup m.senderName with
    | some v => jsOrString v (jsOrString m.senderDisplayName "Unknown")
    | none => jsOrString m.senderDisplayName "Unknown"
  sender_email := jsOrString m.senderEmail ""
  content := jsOrString m.text (jsOrString m.formattedText "")
  message_time := m.createTime
  thread_id := m.threadName
  is_threaded := m.threadName.isSome

/-- The `latestMessageTimeInThisSpace` update:
`if (!latest || messageTime > latest) latest = messageTime`. -/
def optMax (o : Option Nat) (t : Nat) : Option Nat :=
  match o with
  | none => some t
  | some x => if x < t then some t else some x

/-- Per-space loop state: the `spaceMessagesToStore` array, the
`latestMessageTimeInThisSpace` tracker and the
`messagesInThisSpaceProcessed` counter. -/
structure SpaceAcc where
  rows : List ChatRow
  latest : Option Nat
  processed : Nat
deriving Repr, DecidableEq

/-- The body of `for (const message of messages)` inside a page. -/
def processMessage (userId : String) (mapping : List (String × String))
    (space : SpaceRec) (acc : SpaceAcc) (m : RemoteMsg) : SpaceAcc where
  rows := acc.rows ++ [toChatRow userId mapping space m]
  latest := optMax acc.latest m.createTime
  processed := acc.processed + 1

/-- Processing of one fetched page. -/
def processPage (userId : String) (mapping : List (String × String))
    (space : SpaceRec) (acc : SpaceAcc) (page : List RemoteMsg) : SpaceAcc :=
  page.foldl (processMessage userId mapping space) acc

/-- The whole `do … while (nextPageToken)` loop for one space: fetch all
pages of messages with `createTime` strictly greater than the stored
watermark plus one millisecond (`bufferTime = latest_message_time + 1`,
filter `createTime > bufferTime`; no filter when the space has no
watermark) and accumulate them in arrival order. -/
def collectSpaceMessages (userId : String) (mapping : List (String × String))
    (space : SpaceRec) (remote : List RemoteMsg) : SpaceAcc :=
  (chunkPages (chatApiFilter remote (space.latest_message_time.map (· + 1)))).foldl
    (processPage userId mapping space) ⟨[], none, 0⟩

/-- The messages the remote provider holds for a given space id. -/
def remoteFor (remote : List (String × List RemoteMsg)) (sid : String) :
    List RemoteMsg :=
  match remote.lookup sid with
  | some l => l
  | none => []

/-- State carried across the `for (const space of spaces)` loop of
`collectChatData`. -/
structure ChatCycleAcc where
  fileState : Option (List SpaceRec)
  batch : List ChatRow
  trace : List ChatEvent
  hasAnyNewMessages : Bool
  spacesProcessed : Nat
deriving Repr

/-- One iteration of the space loop of `collectChatData`: fetch the
space's new messages, then — still inside the loop, before any database
store — either advance the space's watermark in the spaces JSON file to
the latest fetched timestamp (when new messages were found) or rewrite
it unchanged with `has_new_msg = false` (when none were), and append the
fetched rows to the cycle-wide batch. -/
def processSpace (userId : String) (mapping : List (String × String))
    (remote : List (String × List RemoteMsg)) (acc : ChatCycleAcc)
    (space : SpaceRec) : ChatCycleAcc :=
  let filterTs := space.latest_message_time.map (· + 1)
  let sacc := collectSpaceMessages userId mapping space
    (remoteFor remote space.space_id)
  let trace1 := acc.trace ++ [ChatEvent.listMessages space.space_id filterTs]
  if 0 < sacc.processed ∧ sacc.latest.isSome then
    { fileState := updateSpaceInJSON acc.fileState space.space_id sacc.latest true
      batch := acc.batch ++ sacc.rows
      trace := trace1 ++ [ChatEvent.advanceWatermark space.space_id sacc.latest true]
      hasAnyNewMessages := true
      spacesProcessed := acc.spacesProcessed + 1 }
  else if sacc.processed = 0 then
    { fileState := updateSpaceInJSON acc.fileState space.space_id
        space.latest_message_time false
      batch := acc.batch ++ sacc.rows
      trace := trace1 ++ [ChatEvent.advanceWatermark space.space_id
        space.latest_message_time false]
      hasAnyNewMessages := acc.hasAnyNewMessages
      spacesProcessed := acc.spacesProcessed + 1 }
  else
    { fileState := acc.fileState
      batch := acc.batch ++ sacc.rows
      trace := trace1
      hasAnyNewMessages := acc.hasAnyNewMessages
      spacesProcessed := acc.spacesProcessed + 1 }

/-- The state `collectChatData` operates on: the spaces JSON file, the
remote provider's per-space messages, the chat message collection of the
database, the user-name mapping and the user being collected. -/
structure ChatWorld where
  fileState : Option (List SpaceRec)
  remote : List (String × List RemoteMsg)
  chatDb : List ChatRow
  mapping : List (String × String)
  userId : String
deriving Repr

/-- The result of one run of `collectChatData`. -/
structure ChatCollectResult where
  fileState : Option (List SpaceRec)
  chatDb : List ChatRow
  trace : List ChatEvent
  totalStored : Nat
deriving Repr

/-- `collectChatData(user)` (MongoDB variant): load the spaces from the
JSON file, process every space (fetching its new messages and updating
its watermark in the file), then — only after the space loop — store the
accumulated batch with a single `insertChatMessages` call and write a
success sync log.  Errors are caught internally; nothing is rethrown. -/
def collectChatData (w : ChatWorld) : ChatCollectResult :=
  let spaces := loadSpacesFromJSON w.fileState
  let acc := spaces.foldl (processSpace w.userId w.mapping w.remote)
    ⟨w.fileState, [], [], false, 0⟩
  if acc.batch.isEmpty then
    { fileState := acc.fileState
      chatDb := w.chatDb
      trace := acc.trace ++ [ChatEvent.syncLog "chat" "success" 0]
      totalStored := 0 }
  else
    let ins := insertChatMessages w.chatDb acc.batch
    { fileState := acc.fileState
      chatDb := ins.1
      trace := acc.trace ++ [ChatEvent.storeBatch acc.batch.length,
        ChatEvent.syncLog "chat" "success" ins.2]
      totalStored := ins.2 }

theorem chunkPagesAux_flatten :
    ∀ (fuel : Nat) (l : List RemoteMsg), l.length ≤ fuel →
      (chunkPagesAux fuel l).flatten = l := by
  intro fuel
  induction fuel with
  | zero =>
    intro l hl
    have : l = [] := List.length_eq_zero.mp (Nat.le_zero.mp hl)
    subst this
    rfl
  | succ n ih =>
    intro l hl
    match l with
    | [] => rfl
    | x :: xs =>
      simp only [chunkPagesAux, List.flatten_cons]
      rw [ih ((x :: xs).drop 100) (by simp at hl ⊢; omega)]
      exact List.take_append_drop 100 (x :: xs)

theorem chunkPages_flatten (l : List RemoteMsg) : (chunkPages l).flatten = l :=
  chunkPagesAux_flatten l.length l le_rfl

theorem collectSpaceMessages_eq_foldl (userId : String)
    (mapping : List (String × String)) (space : SpaceRec)
    (remote : List RemoteMsg) :
    collectSpaceMessages userId mapping space remote =
      (chatApiFilter remote (space.latest_message_time.map (· + 1))).foldl
        (processMessage userId mapping space) ⟨[], none, 0⟩ := by
  unfold collectSpaceMessages processPage
  rw [← List.foldl_flatten, chunkPages_flatten]

theorem foldl_processMessage (userId : String)
    (mapping : List (String × String)) (space : SpaceRec) :
    ∀ (l : List RemoteMsg) (acc : SpaceAcc),
      l.foldl (processMessage userId mapping space) acc =
        ⟨acc.rows ++ l.map (toChatRow userId mapping space),
          (l.map (fun m => m.createTime)).foldl optMax acc.latest,
          acc.processed + l.length⟩ := by
  intro l
  induction l with
  | nil => intro acc; simp
  | cons x xs ih =>
    intro acc
    rw [List.foldl_cons, ih]
    simp [processMessage, List.append_assoc]
    omega

theorem optMax_some (x t : Nat) : optMax (some x) t = some (max x t) := by
  show (if x < t then some t else some x) = some (max x t)
  split_ifs with h
  · rw [Nat.max_eq_right (Nat.le_of_lt h)]
  · rw [Nat.max_eq_left (Nat.le_of_not_lt h)]

theorem foldl_optMax_some (l : List Nat) :
    ∀ x, l.foldl optMax (some x) = some (l.foldl max x) := by
  induction l with
  | nil => intro x; rfl
  | cons y ys ih =>
    intro x
    rw [List.foldl_cons, optMax_some, ih, List.foldl_cons]

theorem foldl_optMax_none_eq_max? (l : List Nat) :
    l.foldl optMax none = l.max? := by
  match l with
  | [] => rfl
  | x :: xs =>
    rw [List.foldl_cons]
    show xs.foldl optMax (some x) = _
    rw [foldl_optMax_some]
    rfl

theorem collectSpaceMessages_spec (userId : String)
    (mapping : List (String × String)) (space : SpaceRec)
    (remote : List RemoteMsg) :
    collectSpaceMessages userId mapping space remote =
      ⟨(chatApiFilter remote (space.latest_message_time.map (· + 1))).map
          (toChatRow userId mapping space),
        ((chatApiFilter remote (space.latest_message_time.map (· + 1))).map
          (fun m => m.createTime)).max?,
        (chatApiFilter remote (space.latest_message_time.map (· + 1))).length⟩ := by
  rw [collectSpaceMessages_eq_foldl, foldl_processMessage,
    foldl_optMax_none_eq_max?]
  simp

/-- C8 (counterexample): a message timestamped 6 ms is strictly newer
than the space's stored watermark of 5 ms, yet the collector fetches
nothing: the source adds a 1 ms buffer to the watermark and then asks for
`createTime >` that buffered value, so a message exactly 1 ms after the
watermark is never fetched. -/
theorem C8_counterexample :
    5 < 6 ∧
    (collectSpaceMessages "u1" []
        ⟨"spaces/A", "Alpha", some 5, false, "SPACE"⟩
        [⟨"spaces/A/messages/1", 6, "hi", "", "users/7", "Bob", "", none⟩]).rows =
      [] := by
  decide

/-- C8 (amended): for a chat space with stored watermark `wm`, the
collector fetches exactly the messages with timestamp strictly greater
than `wm + 1` milliseconds (not `wm`): every such message is fetched
across all pages, no message with timestamp at or below `wm + 1` is
fetched, the fetched rows are in ascending time order whenever the
listing is delivered in ascending order, and the space's watermark in the
spaces file is advanced to the maximum timestamp observed whenever at
least one message was fetched. -/
theorem C8_space_incremental_fetch (userId : String)
    (mapping : List (String × String)) (space : SpaceRec)
    (remote : List RemoteMsg) (wm : Nat)
    (hwm : space.latest_message_time = some wm)
    (hsorted : remote.Pairwise fun a b => a.createTime ≤ b.createTime) :
    (collectSpaceMessages userId mapping space remote).rows =
      (remote.filter fun m => decide (wm + 1 < m.createTime)).map
        (toChatRow userId mapping space) ∧
    ((collectSpaceMessages userId mapping space remote).rows.map
      (fun r => r.message_time)).Pairwise (· ≤ ·) ∧
    (collectSpaceMessages userId mapping space remote).latest =
      ((remote.filter fun m => decide (wm + 1 < m.createTime)).map
        (fun m => m.createTime)).max? ∧
    (∀ fs batch tr hnew sp rt,
      remoteFor rt space.space_id = remote →
      (loadSpacesFromJSON fs).any (fun s => s.space_id = space.space_id) = true →
      0 < (collectSpaceMessages userId mapping space remote).processed →
      getWatermark
          ((processSpace userId mapping rt ⟨fs, batch, tr, hnew, sp⟩
            space).fileState) space.space_id =
        ((remote.filter fun m => decide (wm + 1 < m.createTime)).map
          (fun m => m.createTime)).max?) := by
  have hs := collectSpaceMessages_spec userId mapping space remote
  have hfilter : chatApiFilter remote (space.latest_message_time.map (· + 1)) =
      remote.filter fun m => decide (wm + 1 < m.createTime) := by
    rw [hwm]
    rfl
  rw [hfilter] at hs
  refine ⟨?_, ?_, ?_, ?_⟩
  · rw [hs]
  · rw [hs]
    show (((remote.filter fun m => decide (wm + 1 < m.createTime)).map
      (toChatRow userId mapping space)).map fun r => r.message_time).Pairwise _
    rw [List.map_map]
    have : (remote.filter fun m => decide (wm + 1 < m.createTime)).Pairwise
        (fun a b => a.createTime ≤ b.createTime) :=
      hsorted.filter _
    rw [List.pairwise_map]
    exact this
  · rw [hs]
  · intro fs batch tr hnew sp rt hrt hpresent hproc
    have hlatest : (collectSpaceMessages userId mapping space remote).latest =
        ((remote.filter fun m => decide (wm + 1 < m.createTime)).map
          (fun m => m.createTime)).max? := by rw [hs]
    have hsome : (collectSpaceMessages userId mapping space remote).latest.isSome := by
      rw [hs] at hproc ⊢
      simp only at hproc ⊢
      obtain ⟨m, ms, hm⟩ := List.exists_cons_of_ne_nil
        (List.ne_nil_of_length_pos hproc)
      rw [hm]
      rfl
    unfold processSpace
    rw [hrt]
    rw [if_pos ⟨hproc, hsome⟩]
    simp only
    rw [getWatermark_updateSpaceInJSON _ _ _ _ hpresent]
    exact hlatest

/-- C8 (witness): for a space with watermark 5 and an ascending remote
listing holding messages at 4 ms and 7 ms, only the message at 7 ms is
fetched, the latest observed time is 7 and `processSpace` advances the
space's stored watermark to 7. -/
theorem C8_witness :
    (collectSpaceMessages "u1" []
        ⟨"spaces/A", "Alpha", some 5, false, "SPACE"⟩
        [⟨"m1", 4, "a", "", "users/1", "A", "", none⟩,
          ⟨"m2", 7, "b", "", "users/2", "B", "", none⟩]).latest = some 7 ∧
    getWatermark
        ((processSpace "u1" []
          [("spaces/A",
            [⟨"m1", 4, "a", "", "users/1", "A", "", none⟩,
              ⟨"m2", 7, "b", "", "users/2", "B", "", none⟩])]
          ⟨some [⟨"spaces/A", "Alpha", some 5, false, "SPACE"⟩], [], [], false, 0⟩
          ⟨"spaces/A", "Alpha", some 5, false, "SPACE"⟩).fileState)
        "spaces/A" = some 7 := by
  have h := C8_space_incremental_fetch "u1" []
    ⟨"spaces/A", "Alpha", some 5, false, "SPACE"⟩
    [⟨"m1", 4, "a", "", "users/1", "A", "", none⟩,
      ⟨"m2", 7, "b", "", "users/2", "B", "", none⟩]
    5 rfl (by decide)
  exact ⟨h.2.2.1, h.2.2.2
    (some [⟨"spaces/A", "Alpha", some 5, false, "SPACE"⟩]) [] [] false 0
    [("spaces/A",
      [⟨"m1", 4, "a", "", "users/1", "A", "", none⟩,
        ⟨"m2", 7, "b", "", "users/2", "B", "", none⟩])]
    rfl (by decide) (by decide)⟩

theorem processSpace_trace_mem (userId : String)
    (mapping : List (String × String)) (remote : List (String × List RemoteMsg))
    (acc : ChatCycleAcc) (space : SpaceRec) :
    ∀ e ∈ (processSpace userId mapping remote acc space).trace,
      e ∈ acc.trace ∨ e.isStoreBatch = false := by
  intro e he
  unfold processSpace at he
  dsimp only at he
  split_ifs at he with h1 h2
  · rcases List.mem_append.mp he with he | he
    · rcases List.mem_append.mp he with he | he
      · exact Or.inl he
      · simp only [List.mem_singleton] at he; subst he; exact Or.inr rfl
    · simp only [List.mem_singleton] at he; subst he; exact Or.inr rfl
  · rcases List.mem_append.mp he with he | he
    · rcases List.mem_append.mp he with he | he
      · exact Or.inl he
      · simp only [List.mem_singleton] at he; subst he; exact Or.inr rfl
    · simp only [List.mem_singleton] at he; subst he; exact Or.inr rfl
  · rcases List.mem_append.mp he with he | he
    · exact Or.inl he
    · simp only [List.mem_singleton] at he; subst he; exact Or.inr rfl

theorem foldl_processSpace_trace_mem (userId : String)
    (mapping : List (String × String))
    (remote : List (String × List RemoteMsg)) :
    ∀ (spaces : List SpaceRec) (acc : ChatCycleAcc),
      ∀ e ∈ (spaces.foldl (processSpace userId mapping remote) acc).trace,
        e ∈ acc.trace ∨ e.isStoreBatch = false := by
  intro spaces
  induction spaces with
  | nil => intro acc e he; exact Or.inl he
  | cons s rest ih =>
    intro acc e he
    rw [List.foldl_cons] at he
    rcases ih (processSpace userId mapping remote acc s) e he with h | h
    · exact processSpace_trace_mem userId mapping remote acc s e h
    · exact Or.inr h

/-- C2 (counterexample): in a concrete chat cycle — one space with
watermark 5, one new remote message at 10 ms, empty database — a
watermark advancement event occurs strictly before the single
`insertChatMessages` store event: the trace is
`[listMessages, advanceWatermark to 10, storeBatch 1, syncLog]`, so the
events preceding the store already contain an advancement, and between
those two points the cursor (10) is ahead of the newest durably stored
item (none).  This refutes "the watermark is advanced only after the
items that produced it have been durably stored". -/
theorem C2_counterexample :
    (collectChatData
        ⟨some [⟨"spaces/A", "Alpha", some 5, false, "SPACE"⟩],
          [("spaces/A", [⟨"m1", 10, "hi", "", "users/7", "Bob", "", none⟩])],
          [], [], "u1"⟩).trace =
      [ChatEvent.listMessages "spaces/A" (some 6),
        ChatEvent.advanceWatermark "spaces/A" (some 10) true,
        ChatEvent.storeBatch 1,
        ChatEvent.syncLog "chat" "success" 1] ∧
    ((collectChatData
        ⟨some [⟨"spaces/A", "Alpha", some 5, false, "SPACE"⟩],
          [("spaces/A", [⟨"m1", 10, "hi", "", "users/7", "Bob", "", none⟩])],
          [], [], "u1"⟩).trace.takeWhile
      (fun e => !e.isStoreBatch)).any ChatEvent.isAdvance = true := by
  decide

/-- C2 (amended): in every chat collection cycle the watermark writes
happen inside the space loop, before the single durable store: every
event of the cycle's trace that precedes the store is a listing or
watermark write (never a store), and everything from the store on is the
store and the sync log (never a watermark write).  Hence each space's
watermark is advanced before — not after — the batch that produced it is
durably stored, and between a space's advancement and the end-of-cycle
store the cursor is ahead of the newest durably stored item. -/
theorem C2_watermark_advanced_before_store (w : ChatWorld) :
    ∃ pre post, (collectChatData w).trace = pre ++ post ∧
      (∀ e ∈ pre, e.isStoreBatch = false) ∧
      (∀ e ∈ post, e.isAdvance = false) := by
  unfold collectChatData
  dsimp only
  set acc := (loadSpacesFromJSON w.fileState).foldl
    (processSpace w.userId w.mapping w.remote) ⟨w.fileState, [], [], false, 0⟩
    with hacc
  have hpre : ∀ e ∈ acc.trace, e.isStoreBatch = false := by
    intro e he
    rcases foldl_processSpace_trace_mem w.userId w.mapping w.remote
      (loadSpacesFromJSON w.fileState) ⟨w.fileState, [], [], false, 0⟩ e
      (by rw [← hacc]; exact he) with h | h
    · simp at h
    · exact h
  split_ifs
  · exact ⟨acc.trace, [ChatEvent.syncLog "chat" "success" 0], rfl, hpre,
      by intro e he; simp only [List.mem_singleton] at he; subst he; rfl⟩
  · exact ⟨acc.trace,
      [ChatEvent.storeBatch acc.batch.length,
        ChatEvent.syncLog "chat" "success"
          (insertChatMessages w.chatDb acc.batch).2], rfl, hpre,
      by
        intro e he
        simp only [List.mem_cons, List.mem_singleton, List.not_mem_nil] at he
        rcases he with he | he | he
        · subst he; rfl
        · subst he; rfl
        · exact absurd he (by simp)⟩

/-- C9 (counterexample): with the spaces file absent, a remote space that
holds a message and an empty database, the chat cycle performs no listing
call, no storage-layer watermark query and stores nothing — it collects
nothing instead of degrading to a re-scan driven by the storage layer's
watermark query. -/
theorem C9_counterexample :
    (remoteFor [("spaces/A", [⟨"m1", 10, "hi", "", "users/7", "Bob", "", none⟩])]
      "spaces/A").length = 1 ∧
    (collectChatData
        ⟨none, [("spaces/A", [⟨"m1", 10, "hi", "", "users/7", "Bob", "", none⟩])],
          [], [], "u1"⟩).chatDb = [] ∧
    (collectChatData
        ⟨none, [("spaces/A", [⟨"m1", 10, "hi", "", "users/7", "Bob", "", none⟩])],
          [], [], "u1"⟩).trace =
      [ChatEvent.syncLog "chat" "success" 0] := by
  decide

/-- C9 (amended): if the per-space watermark file is absent or unreadable,
`loadSpacesFromJSON` returns an empty space list and the chat cycle still
completes without throwing to the caller, writing a success sync log with
zero items; but it processes zero spaces and collects nothing — there is
no fallback re-scan driven by the storage layer's own watermark query
(that query is never issued by `collectChatData`), and the database and
file state are left unchanged. -/
theorem C9_missing_file_collects_nothing (remote : List (String × List RemoteMsg))
    (db : List ChatRow) (mapping : List (String × String)) (userId : String) :
    collectChatData ⟨none, remote, db, mapping, userId⟩ =
      ⟨none, db, [ChatEvent.syncLog "chat" "success" 0], 0⟩ :=
  rfl

/-! ## Orchestrator: `collectAllData` / `collectUserData` of
`src/dataFetcher.js` (MongoDB variant), with the per-user steps (token
refresh, chat collection, gmail collection) abstracted as state
transformers over an arbitrary world type `W` (cursor files, databases,
remote state), each returning the events it emitted and the error it
escaped with, if any. -/

/-- Events observable at the orchestrator level: the overlap-guard
warning, an event emitted inside one of the awaited per-user steps
(tagged with a free-form label, e.g. a sync-log write), and the
`logger.error` lines of the `catch` blocks of `collectUserData`
(per-source and whole-user). -/
inductive OrchEvent
  | skipWarn
  | emitted (tag : String)
  | errorLog (email : String) (source : String)
deriving Repr, DecidableEq

/-- The in-memory `this.stats` counters of the `DataFetcher`. -/
structure FetcherStats where
  totalRuns : Nat
  successfulRuns : Nat
  failedRuns : Nat
deriving Repr, DecidableEq

/-- The mutable orchestrator state: the `isRunning` flag, `lastRunTime`
and the run counters. -/
structure Orchestrator where
  isRunning : Bool
  lastRunTime : Option Nat
  stats : FetcherStats
deriving Repr, DecidableEq

/-- The outcome of one awaited step as seen from its `try`/`catch` site:
the world it left behind, the events it emitted before returning or
rejecting, and `some msg` when it rejected. -/
structure StepResult (W : Type) where
  world : W
  events : List OrchEvent
  err : Option String

/-- One user of a cycle: the email and the behaviors of the three awaited
steps of `collectUserData` — token refresh (`refreshTokenIfNeeded` plus
the conditional `updateUserTokens`), `collectChatData` and
`collectGmailData`. -/
structure UserCycle (W : Type) where
  email : String
  refresh : W → StepResult W
  chat : W → StepResult W
  gmail : W → StepResult W

/-- `collectUserData(user)` (MongoDB variant): refresh tokens (on an
escaping error the outer catch logs and skips both collections), then run
chat collection in its own `try`/`catch` (log and continue on error),
then gmail collection in its own `try`/`catch` (log and continue on
error).  Nothing is rethrown to the caller. -/
def collectUserData {W : Type} (email : String)
    (refresh chat gmail : W → StepResult W) (w : W) : W × List OrchEvent :=
  let r1 := refresh w
  match r1.err with
  | some _ => (r1.world, r1.events ++ [OrchEvent.errorLog email "user"])
  | none =>
    let r2 := chat r1.world
    let chatLog := match r2.err with
      | some _ => [OrchEvent.errorLog email "chat"]
      | none => []
    let r3 := gmail r2.world
    let gmailLog := match r3.err with
      | some _ => [OrchEvent.errorLog email "gmail"]
      | none => []
    (r3.world, r1.events ++ r2.events ++ chatLog ++ r3.events ++ gmailLog)

/-- `collectAllData()` (MongoDB variant): if `isRunning` is set, log one
skip warning and return without touching anything; otherwise set the
running flag, stamp `lastRunTime`, bump `totalRuns`, and process each
active user sequentially through `collectUserData`, each user inside a
`try`/`catch` so that one user's failure never stops the loop; with at
least one user the cycle ends bumping `successfulRuns`; `isRunning` is
cleared in `finally`.  (The follow-up LLM-analysis step of the source is
caught independently and affects no orchestrator state; the
`getAllActiveUsers` failure path is outside this model, which receives
the user list as input.) -/
def collectAllData {W : Type} (st : Orchestrator) (now : Nat)
    (users : List (UserCycle W)) (w : W) :
    Orchestrator × W × List OrchEvent :=
  if st.isRunning then
    (st, w, [OrchEvent.skipWarn])
  else if users.isEmpty then
    ({ isRunning := false, lastRunTime := some now,
       stats := { st.stats with totalRuns := st.stats.totalRuns + 1 } },
      w, [])
  else
    let result := users.foldl
      (fun (acc : W × List OrchEvent) u =>
        let r := collectUserData u.email u.refresh u.chat u.gmail acc.1
        (r.1, acc.2 ++ r.2))
      (w, [])
    ({ isRunning := false, lastRunTime := some now,
       stats := { totalRuns := st.stats.totalRuns + 1,
                  successfulRuns := st.stats.successfulRuns + 1,
                  failedRuns := st.stats.failedRuns } },
      result.1, result.2)

/-- The cron callback installed by `start()`:
`cron.schedule(expr, async () => { await this.collectAllData(); })`. -/
def scheduledTick {W : Type} (st : Orchestrator) (now : Nat)
    (users : List (UserCycle W)) (w : W) :
    Orchestrator × W × List OrchEvent :=
  collectAllData st now users w

/-- The externally triggerable entry point (the manual trigger endpoint
and the serverless cron endpoint both run `await fetcher.collectAllData()`). -/
def externalTrigger {W : Type} (st : Orchestrator) (now : Nat)
    (users : List (UserCycle W)) (w : W) :
    Orchestrator × W × List OrchEvent :=
  collectAllData st now users w

theorem collectUserData_chat_fails {W : Type} (email : String)
    (refresh chat gmail : W → StepResult W) (w : W) (m : String)
    (hrefresh : (refresh w).err = none)
    (hchat : (chat (refresh w).world).err = some m) :
    collectUserData email refresh chat gmail w =
      ((gmail (chat (refresh w).world).world).world,
        (refresh w).events ++ (chat (refresh w).world).events
          ++ [OrchEvent.errorLog email "chat"]
          ++ (gmail (chat (refresh w).world).world).events
          ++ (match (gmail (chat (refresh w).world).world).err with
              | some _ => [OrchEvent.errorLog email "gmail"]
              | none => [])) := by
  unfold collectUserData
  dsimp only
  rw [hrefresh]
  dsimp only
  rw [hchat]

/-- C5: failure isolation.  If in a two-user cycle user A's token refresh
succeeds and A's chat collection throws, the cycle still executes A's
gmail collection (on the world state the failed chat step left behind)
and then user B's entire per-user processing; the trace is exactly A's
refresh events, A's chat events, one error log for (A, chat), A's gmail
events, an error log for (A, gmail) only if gmail also failed, followed
by B's full `collectUserData` — so one source's failure for one user
never prevents the other source or the other user, and each (user,
source) outcome is logged independently. -/
theorem C5_failure_isolation {W : Type} (st : Orchestrator) (now : Nat)
    (A B : UserCycle W) (w : W) (m : String)
    (hrun : st.isRunning = false)
    (hrefresh : (A.refresh w).err = none)
    (hchat : (A.chat (A.refresh w).world).err = some m) :
    (collectAllData st now [A, B] w).2.2 =
      (A.refresh w).events
        ++ (A.chat (A.refresh w).world).events
        ++ [OrchEvent.errorLog A.email "chat"]
        ++ (A.gmail (A.chat (A.refresh w).world).world).events
        ++ (match (A.gmail (A.chat (A.refresh w).world).world).err with
            | some _ => [OrchEvent.errorLog A.email "gmail"]
            | none => [])
        ++ (collectUserData B.email B.refresh B.chat B.gmail
            (A.gmail (A.chat (A.refresh w).world).world).world).2 := by
  have hA := collectUserData_chat_fails A.email A.refresh A.chat A.gmail w m
    hrefresh hchat
  unfold collectAllData
  rw [if_neg (by rw [hrun]; simp)]
  rw [if_neg (by simp)]
  dsimp only
  rw [List.foldl_cons, List.foldl_cons, List.foldl_nil]
  dsimp only
  rw [hA]
  simp [List.append_assoc]

/-- C5 (witness): a concrete two-user cycle over a counter world where
A's chat step throws "boom": A's gmail still runs and B is processed in
full, with the expected trace. -/
theorem C5_witness :
    (collectAllData ⟨false, none, ⟨0, 0, 0⟩⟩ 99
      [⟨"a@x.test",
          fun w => ⟨w + 1, [OrchEvent.emitted "A refresh"], none⟩,
          fun w => ⟨w, [OrchEvent.emitted "A chat partial"], some "boom"⟩,
          fun w => ⟨w + 10, [OrchEvent.emitted "A gmail"], none⟩⟩,
        ⟨"b@x.test",
          fun w => ⟨w + 1, [OrchEvent.emitted "B refresh"], none⟩,
          fun w => ⟨w + 2, [OrchEvent.emitted "B chat"], none⟩,
          fun w => ⟨w + 3, [OrchEvent.emitted "B gmail"], none⟩⟩]
      (0 : Nat)).2.2 =
      [OrchEvent.emitted "A refresh", OrchEvent.emitted "A chat partial",
        OrchEvent.errorLog "a@x.test" "chat", OrchEvent.emitted "A gmail",
        OrchEvent.emitted "B refresh", OrchEvent.emitted "B chat",
        OrchEvent.emitted "B gmail"] := by
  have h := C5_failure_isolation ⟨false, none, ⟨0, 0, 0⟩⟩ 99
    ⟨"a@x.test",
      fun w => ⟨w + 1, [OrchEvent.emitted "A refresh"], none⟩,
      fun w => ⟨w, [OrchEvent.emitted "A chat partial"], some "boom"⟩,
      fun w => ⟨w + 10, [OrchEvent.emitted "A gmail"], none⟩⟩
    ⟨"b@x.test",
      fun w => ⟨w + 1, [OrchEvent.emitted "B refresh"], none⟩,
      fun w => ⟨w + 2, [OrchEvent.emitted "B chat"], none⟩,
      fun w => ⟨w + 3, [OrchEvent.emitted "B gmail"], none⟩⟩
    (0 : Nat) "boom" rfl rfl rfl
  exact h.trans rfl

/-- C6: overlap guard.  Invoking `collectAllData` while a cycle is
already running (`isRunning = true`) performs zero per-user processing,
emits exactly the one skip warning, and leaves the orchestrator state
(run counters, last-run time) and the whole world (cursor files, stored
data) unchanged; the scheduled cron tick and the external trigger are
both plain calls to `collectAllData`, hence pass through this same
guard. -/
theorem C6_overlap_guard {W : Type} (st : Orchestrator) (now : Nat)
    (users : List (UserCycle W)) (w : W) (h : st.isRunning = true) :
    collectAllData st now users w = (st, w, [OrchEvent.skipWarn]) ∧
    scheduledTick st now users w = collectAllData st now users w ∧
    externalTrigger st now users w = collectAllData st now users w := by
  refine ⟨?_, rfl, rfl⟩
  unfold collectAllData
  rw [if_pos h]

/-- C6 (witness): a concrete busy orchestrator (running, counters
⟨3, 2, 1⟩) with one pending user: the call returns the state, world and
a single skip warning, and both entry points agree with it. -/
theorem C6_witness :
    collectAllData ⟨true, some 5, ⟨3, 2, 1⟩⟩ 99
        [⟨"a@x.test",
          fun w => ⟨w, [], none⟩, fun w => ⟨w, [], none⟩,
          fun w => ⟨w, [], none⟩⟩] (7 : Nat) =
      (⟨true, some 5, ⟨3, 2, 1⟩⟩, 7, [OrchEvent.skipWarn]) ∧
    scheduledTick ⟨true, some 5, ⟨3, 2, 1⟩⟩ 99
        [⟨"a@x.test",
          fun w => ⟨w, [], none⟩, fun w => ⟨w, [], none⟩,
          fun w => ⟨w, [], none⟩⟩] (7 : Nat) =
      collectAllData ⟨true, some 5, ⟨3, 2, 1⟩⟩ 99
        [⟨"a@x.test",
          fun w => ⟨w, [], none⟩, fun w => ⟨w, [], none⟩,
          fun w => ⟨w, [], none⟩⟩] (7 : Nat) :=
  ⟨(C6_overlap_guard ⟨true, some 5, ⟨3, 2, 1⟩⟩ 99
      [⟨"a@x.test",
        fun w => ⟨w, [], none⟩, fun w => ⟨w, [], none⟩,
        fun w => ⟨w, [], none⟩⟩] (7 : Nat) rfl).1,
    (C6_overlap_guard ⟨true, some 5, ⟨3, 2, 1⟩⟩ 99
      [⟨"a@x.test",
        fun w => ⟨w, [], none⟩, fun w => ⟨w, [], none⟩,
        fun w => ⟨w, [], none⟩⟩] (7 : Nat) rfl).2.1⟩

end PMStatus
